import Mathlib

/-!
Verification development for the UVM unified-memory driver core
(`kernel-open/nvidia-uvm/uvm_kvmalloc.c` and `kernel-open/nvidia-uvm/uvm.c`).

Part 1 embeds the tracking allocator (`uvm_kvmalloc.c`): the heap is an
association list from addresses to allocation records, state of the leak
checker is an aggregate byte counter, an untracked-allocation counter and
an origin-info table.  Underlying-allocator outcomes (kmalloc, vmalloc,
krealloc, the info-cache allocation) are supplied as explicit oracle
parameters, one per call site, since the kernel allocators are external
to this repository; the dispatch logic, the tracking bookkeeping and the
failure paths are translated line by line from the source.

Part 2 embeds the VMA lifecycle and CPU-fault paths (`uvm.c`): the
mapping-split handler `uvm_vm_open_managed` with its failure routine
`uvm_vm_open_failure`, the `uvm_mmap` validation sequence, the
`uvm_release` deferred-teardown path, and the `uvm_vm_fault` handler with
its throttled retry loop, modelled as a trace-producing state machine.
-/

set_option autoImplicit false

namespace Uvm

/-! ### Part 1: the tracking allocator, from `uvm_kvmalloc.c` -/

abbrev Addr := Nat

/-- One live allocation as seen by the kvmalloc layer.  `isVmalloc` tells
which underlying allocator owns the address (`is_vmalloc_addr` in the
source); `reqSize` is the originally requested size (for vmalloc
allocations this is the hidden header field `uvm_vmalloc_hdr_t.alloc_size`);
`kSize` models `ksize(p)` for kmalloc allocations, which may exceed
`reqSize`. -/
structure Alloc where
  isVmalloc : Bool
  reqSize : Nat
  kSize : Nat
deriving DecidableEq, Repr

/-- Origin record contents of `uvm_kvmalloc_info_t` (file, line, function). -/
structure Info where
  file : String
  line : Int
  func : String
deriving DecidableEq, Repr

/-- Lookup in an address-keyed association list. -/
def assocFind {β : Type} : List (Nat × β) → Nat → Option β
  | [], _ => none
  | (a, b) :: t, p => if a = p then some b else assocFind t p

/-- Removal from an address-keyed association list. -/
def assocErase {β : Type} : List (Nat × β) → Nat → List (Nat × β)
  | [], _ => []
  | (a, b) :: t, p => if a = p then assocErase t p else (a, b) :: assocErase t p

abbrev Heap := List (Addr × Alloc)

/-- Global state of the kvmalloc layer: the set of live allocations plus
the `g_uvm_leak_checker` fields `bytes_allocated`, `untracked_allocations`
and the `allocation_info` table. -/
structure MState where
  heap : Heap
  bytesAllocated : Int
  untrackedAllocations : Int
  infos : List (Addr × Info)
deriving DecidableEq, Repr

/-- `ZERO_SIZE_PTR`, the kernel's sentinel for zero-size allocations
(address 16). -/
def ZERO_SIZE_PTR : Addr := 16

/-- `ZERO_OR_NULL_PTR(x)`: true for the null pointer and the zero-size
sentinel (addresses up to 16). -/
def ZERO_OR_NULL_PTR (p : Addr) : Bool := p ≤ ZERO_SIZE_PTR

/-- `is_vmalloc_addr`, decided from the heap record owning the address. -/
def is_vmalloc_addr (h : Heap) (p : Addr) : Bool :=
  match assocFind h p with
  | some a => a.isVmalloc
  | none => false

/-- `uvm_kvsize`: dispatches on which allocator owns the address; for a
vmalloc allocation it reads the hidden header's `alloc_size`, otherwise it
returns `ksize(p)`.  Returns 0 on a dead address (the source asserts
liveness). -/
def uvm_kvsize (h : Heap) (p : Addr) : Nat :=
  match assocFind h p with
  | some a => if a.isVmalloc then a.reqSize else a.kSize
  | none => 0

/-- `alloc_tracking_add(p, file, line, function)`: adds `uvm_kvsize(p)` to
the aggregate counter and, at leak-check level `ORIGIN` (2) and above,
inserts an origin record, silently counting the allocation as untracked if
the info-cache allocation (`infoAllocOk`) fails. -/
def alloc_tracking_add (lc : Nat) (s : MState) (p : Addr) (inf : Info)
    (infoAllocOk : Bool) : MState :=
  if ZERO_OR_NULL_PTR p then s
  else
    let s1 : MState :=
      { s with bytesAllocated := s.bytesAllocated + (uvm_kvsize s.heap p : Int) }
    if 2 ≤ lc then
      if infoAllocOk then { s1 with infos := (p, inf) :: s1.infos }
      else { s1 with untrackedAllocations := s1.untrackedAllocations + 1 }
    else s1

/-- `alloc_tracking_remove(p)`: subtracts `uvm_kvsize(p)` and removes the
origin record (or decrements the untracked counter when no record is
found). -/
def alloc_tracking_remove (lc : Nat) (s : MState) (p : Addr) : MState :=
  if ZERO_OR_NULL_PTR p then s
  else
    let s1 : MState :=
      { s with bytesAllocated := s.bytesAllocated - (uvm_kvsize s.heap p : Int) }
    if 2 ≤ lc then
      match assocFind s1.infos p with
      | some _ => { s1 with infos := assocErase s1.infos p }
      | none => { s1 with untrackedAllocations := s1.untrackedAllocations - 1 }
    else s1

/-- `alloc_internal(size, zero_memory)`: sizes up to the threshold
`UVM_KMALLOC_THRESHOLD` (parameter `T`) go to kmalloc/kzalloc directly;
larger sizes go to vmalloc/vzalloc with a hidden header recording the
requested size.  `low` is the oracle outcome of the one underlying
allocator call: `none` models allocation failure, `some (a, ksz)` models
success at fresh address `a` (with `ksize(a) = ksz` in the kmalloc case). -/
def alloc_internal (T size : Nat) (zeroMemory : Bool)
    (low : Option (Addr × Nat)) (h : Heap) : Option Addr × Heap :=
  if size ≤ T then
    match low with
    | none => (none, h)
    | some (a, ksz) => (some a, (a, ⟨false, size, ksz⟩) :: h)
  else
    match low with
    | none => (none, h)
    | some (a, _) =>
      let _ := zeroMemory
      (some a, (a, ⟨true, size, size⟩) :: h)

/-- `__uvm_kvmalloc`: allocate, then record the allocation with the leak
checker when the checker is enabled and the allocation succeeded. -/
def uvm_kvmalloc_impl (T lc size : Nat) (inf : Info)
    (low : Option (Addr × Nat)) (infoAllocOk : Bool) (s : MState) :
    Option Addr × MState :=
  let r := alloc_internal T size false low s.heap
  match r.1 with
  | some p =>
    if lc ≠ 0 then (some p, alloc_tracking_add lc { s with heap := r.2 } p inf infoAllocOk)
    else (some p, { s with heap := r.2 })
  | none => (none, { s with heap := r.2 })

/-- Kernel `krealloc` semantics as assumed by the source (2016-2020 era):
size 0 frees and returns `ZERO_SIZE_PTR`; failure returns null and leaves
the original allocation intact; success moves (or keeps) the data at the
oracle-supplied address. -/
def krealloc (p : Addr) (newSize : Nat) (low : Option (Addr × Nat))
    (h : Heap) : Option Addr × Heap :=
  if newSize = 0 then (some ZERO_SIZE_PTR, assocErase h p)
  else
    match low with
    | none => (none, h)
    | some (a, ksz) => (some a, (a, ⟨false, newSize, ksz⟩) :: assocErase h p)

/-- `realloc_from_kmalloc`: kmalloc-to-kmalloc uses `krealloc` directly;
kmalloc-to-vmalloc allocates, copies and frees the old pointer, leaving it
untouched on allocation failure. -/
def realloc_from_kmalloc (T p newSize : Nat)
    (kreallocLow allocLow : Option (Addr × Nat)) (h : Heap) :
    Option Addr × Heap :=
  if newSize ≤ T then krealloc p newSize kreallocLow h
  else
    let r := alloc_internal T newSize false allocLow h
    match r.1 with
    | none => (none, h)
    | some np => (some np, assocErase r.2 p)

/-- `realloc_from_vmalloc`: size 0 frees the header and returns the
`ZERO_SIZE_PTR` sentinel; an unchanged size returns the pointer as is;
otherwise allocate-copy-free, leaving the original untouched on
allocation failure.  A dead address models the `get_hdr` assertion
territory and returns failure without touching the heap. -/
def realloc_from_vmalloc (T p newSize : Nat)
    (allocLow : Option (Addr × Nat)) (h : Heap) : Option Addr × Heap :=
  match assocFind h p with
  | none => (none, h)
  | some old =>
    if newSize = 0 then (some ZERO_SIZE_PTR, assocErase h p)
    else if newSize = old.reqSize then (some p, h)
    else
      let r := alloc_internal T newSize false allocLow h
      match r.1 with
      | none => (none, h)
      | some np => (some np, assocErase r.2 p)

/-- The leading leak-checker block of `__uvm_kvrealloc`: for a free
(`new_size == 0`) remove the tracking outright; otherwise pull the old
byte count and origin record out of the tracking state ahead of the
underlying realloc (the record must not stay in the table while the
address may be reused by another thread). -/
def kvrealloc_pull (lc p newSize : Nat) (s : MState) : Option Info × MState :=
  if lc ≠ 0 then
    if newSize = 0 then (none, alloc_tracking_remove lc s p)
    else
      let s1 : MState :=
        { s with bytesAllocated := s.bytesAllocated - (uvm_kvsize s.heap p : Int) }
      if 2 ≤ lc then
        match assocFind s1.infos p with
        | some i => (some i, { s1 with infos := assocErase s1.infos p })
        | none =>
          (none, { s1 with untrackedAllocations := s1.untrackedAllocations - 1 })
      else (none, s1)
  else (none, s)

/-- The trailing leak-checker block of `__uvm_kvrealloc`: on realloc
failure put the old byte count and origin record back; on success (other
than a free) drop the pulled record and track the new pointer. -/
def kvrealloc_settle (lc newSize : Nat) (p : Addr) (inf : Info) (iok : Bool)
    (oldSize : Nat) (pulledInfo : Option Info) (newP : Option Addr)
    (s2 : MState) : MState :=
  if lc ≠ 0 then
    match newP with
    | none =>
      let s4 : MState :=
        { s2 with bytesAllocated := s2.bytesAllocated + (oldSize : Int) }
      if 2 ≤ lc then
        match pulledInfo with
        | some i => { s4 with infos := (p, i) :: s4.infos }
        | none => s4
      else s4
    | some np =>
      if newSize ≠ 0 then alloc_tracking_add lc s2 np inf iok
      else s2
  else s2

/-- `__uvm_kvrealloc`: null or sentinel input behaves as `__uvm_kvmalloc`;
size 0 behaves as free; otherwise the old tracking state is pulled out
before the underlying realloc and restored if the realloc fails.
`kreallocLow`, `allocLow`, `mallocLow` are the oracle outcomes of the
respective underlying calls; `infoAllocOk` is the oracle outcome of the
info-cache allocation performed when re-tracking a successful realloc. -/
def uvm_kvrealloc_impl (T lc p newSize : Nat) (inf : Info)
    (kreallocLow allocLow mallocLow : Option (Addr × Nat))
    (infoAllocOk : Bool) (s : MState) : Option Addr × MState :=
  if ZERO_OR_NULL_PTR p then
    uvm_kvmalloc_impl T lc newSize inf mallocLow infoAllocOk s
  else
    let oldSize := uvm_kvsize s.heap p
    let pulled := kvrealloc_pull lc p newSize s
    let s1 := pulled.2
    let r :=
      if is_vmalloc_addr s1.heap p then
        realloc_from_vmalloc T p newSize allocLow s1.heap
      else
        realloc_from_kmalloc T p newSize kreallocLow allocLow s1.heap
    let s2 : MState := { s1 with heap := r.2 }
    (r.1, kvrealloc_settle lc newSize p inf infoAllocOk oldSize pulled.1 r.1 s2)

/-- `uvm_kvfree`: a null pointer is ignored; otherwise the tracking record
is removed (when the checker is enabled) and the allocation is returned to
whichever underlying allocator owns it. -/
def uvm_kvfree (lc : Nat) (p : Addr) (s : MState) : MState :=
  if p = 0 then s
  else
    let s1 := if lc ≠ 0 then alloc_tracking_remove lc s p else s
    { s1 with heap := assocErase s1.heap p }

/-! ### Part 2: mapping lifecycle and fault path, from `uvm.c` -/

/-- The `vm_operations_struct` installed on a vma: `uvm_vm_ops_managed`,
`uvm_vm_ops_disabled` (every fault fails with SIGBUS) or
`uvm_vm_ops_semaphore_pool`. -/
inductive VmOps
  | managed
  | disabled
  | semaphorePool
deriving DecidableEq, Repr

/-- A host-kernel vma as the split handler sees it: bounds (`vmEnd`
exclusive), the owning `mm`, the installed operations, whether a
`uvm_vma_wrapper_t` is attached as `vm_private_data`, and whether CPU
page-table entries for its interval are still mapped. -/
structure Vma where
  id : Nat
  vmStart : Nat
  vmEnd : Nat
  mm : Nat
  ops : VmOps
  hasWrapper : Bool
  ptesMapped : Bool
deriving DecidableEq, Repr

/-- An address-range record (`uvm_va_range_t`): inclusive bounds and the
id of the vma its `managed.vma_wrapper` currently points to. -/
structure VaRange where
  rStart : Nat
  rEnd : Nat
  vmaRef : Nat
deriving DecidableEq, Repr

/-- State acted on by the managed-mapping open (split) notification: the
original vma, the new vma carved from it, and the address-range table. -/
structure OpenState where
  original : Vma
  vma : Vma
  ranges : List VaRange
deriving DecidableEq, Repr

/-- Whether a range record lies under a vma's interval (the iteration
domain of `uvm_for_each_va_range_in_vma`). -/
def rangeInVma (r : VaRange) (v : Vma) : Bool :=
  decide (v.vmStart ≤ r.rEnd) && decide (r.rStart < v.vmEnd)

/-- `uvm_disable_vma`: unmap the CPU page-table entries of the interval,
install the fault-fails operations, release the wrapper. -/
def uvm_disable_vma (v : Vma) : Vma :=
  { v with ptesMapped := false, ops := VmOps.disabled, hasWrapper := false }

/-- `uvm_vm_open_failure(original, new)`: destroy every range record under
the original vma along with its wrapper (`uvm_destroy_vma_managed`), then
disable both vmas. -/
def uvm_vm_open_failure (st : OpenState) : OpenState :=
  let ranges := st.ranges.filter (fun r => !(rangeInVma r st.original))
  let original := uvm_disable_vma { st.original with hasWrapper := false }
  { original := original, vma := uvm_disable_vma st.vma, ranges := ranges }

/-- `uvm_va_range_find`: the range record containing the given address. -/
def findRange : List VaRange → Nat → Option VaRange
  | [], _ => none
  | r :: t, a => if r.rStart ≤ a ∧ a ≤ r.rEnd then some r else findRange t a

/-- `uvm_va_range_split(r, newEnd)` on success: replace `r` by the two
halves `[rStart, newEnd]` and `[newEnd+1, rEnd]`, payload preserved. -/
def splitRanges : List VaRange → VaRange → Nat → List VaRange
  | [], _, _ => []
  | x :: t, r, newEnd =>
    if x = r then
      ⟨r.rStart, newEnd, r.vmaRef⟩ :: ⟨newEnd + 1, r.rEnd, r.vmaRef⟩ :: splitRanges t r newEnd
    else x :: splitRanges t r newEnd

/-- The final loop of the split handler: point every range record under
the new vma at the new vma's wrapper. -/
def repointRanges (rs : List VaRange) (v : Vma) : List VaRange :=
  rs.map (fun r => if rangeInVma r v then { r with vmaRef := v.id } else r)

/-- `uvm_vm_open_managed`: on fork or move the new vma is simply disabled;
on a true split the handler allocates a wrapper for the new vma
(`wrapperAllocOk`), locates the range record spanning the split boundary,
splits it when the boundary falls strictly inside (`splitOk` is the
outcome of `uvm_va_range_split`), and repoints the records now under the
new vma.  Either failure routes through `uvm_vm_open_failure`.  `none`
models the states the source rejects by assertion (a split vma outside its
parent, or no range spanning the boundary). -/
def uvm_vm_open_managed (st : OpenState) (wrapperAllocOk splitOk : Bool) :
    Option OpenState :=
  let original := st.original
  let vma : Vma := { st.vma with hasWrapper := false }
  if vma.mm ≠ original.mm ∨ (vma.vmStart ≠ original.vmStart ∧ vma.vmEnd ≠ original.vmEnd) then
    some { st with vma := uvm_disable_vma vma }
  else if ¬ (original.vmStart ≤ vma.vmStart ∧ vma.vmEnd ≤ original.vmEnd) then none
  else
    let newEnd := if vma.vmStart = original.vmStart then vma.vmEnd - 1 else vma.vmStart - 1
    if ¬ wrapperAllocOk then
      some (uvm_vm_open_failure { st with vma := vma })
    else
      let vma : Vma := { vma with hasWrapper := true }
      match findRange st.ranges newEnd with
      | none => none
      | some r =>
        if r.rEnd ≠ newEnd then
          if splitOk then
            some { original := original, vma := vma,
                   ranges := repointRanges (splitRanges st.ranges r newEnd) vma }
          else
            some (uvm_vm_open_failure { st with vma := vma })
        else
          some { original := original, vma := vma,
                 ranges := repointRanges st.ranges vma }

/-- Observable actions of the release path. -/
inductive REvent
  | clearPrivateData
  | clearMapping
  | pmTrylockSucceed
  | pmTrylockFail
  | vaSpaceDestroy
  | pmUpRead
  | initMappingOnce
  | initDeferredItem
  | scheduleDeferred
  | pmDownReadBlock
deriving DecidableEq, Repr

/-- `uvm_release`: clear the file back-references, then either tear the
address space down under a non-blocking power-management lock acquisition,
or (when the trylock fails) re-initialise the stale mapping references and
schedule the teardown on the deferred-release queue.  Returns 0 in both
cases. -/
def uvm_release (trylockOk : Bool) : Int × List REvent :=
  if trylockOk then
    (0, [REvent.clearPrivateData, REvent.clearMapping, REvent.pmTrylockSucceed,
         REvent.vaSpaceDestroy, REvent.pmUpRead])
  else
    (0, [REvent.clearPrivateData, REvent.clearMapping, REvent.pmTrylockFail,
         REvent.initMappingOnce, REvent.initDeferredItem, REvent.scheduleDeferred])

/-- `uvm_release_deferred`: the scheduled teardown blocks acquiring the
power-management lock, destroys the address space, and releases the
lock. -/
def uvm_release_deferred : List REvent :=
  [REvent.pmDownReadBlock, REvent.vaSpaceDestroy, REvent.pmUpRead]

/-- The `NV_STATUS` values distinguished by the embedded paths.
`errOther` stands for any other error status (fatal global errors such as
ECC or RC failures). -/
inductive NvStatus
  | ok
  | busyRetry
  | noMemory
  | moreProcessing
  | addressInUse
  | errOther
deriving DecidableEq, Repr

/-- Observable actions of the CPU-fault path. -/
inductive FEvent
  | pmTrylockFail
  | pmLock
  | pmUnlock
  | ctxAlloc
  | ctxFree
  | upRead
  | downRead
  | throttleStart
  | throttleEnd
  | sleepFor (ns : Nat)
  | findCreate
  | serviceFault
  | recordFatalFault
deriving DecidableEq, Repr

/-- Count the occurrences of one event in a trace. -/
def countEv : List FEvent → FEvent → Nat
  | [], _ => 0
  | e :: t, x => (if e = x then 1 else 0) + countEv t x

/-- Count the sleep events of a trace, whatever their durations. -/
def countSleeps : List FEvent → Nat
  | [] => 0
  | FEvent.sleepFor _ :: t => 1 + countSleeps t
  | _ :: t => countSleeps t

/-- The minimal sleep in nanoseconds: the remaining wait converted to
whole microseconds (`nap_us = (wakeup - now) / 1000`) and slept via
`usleep_range(nap_us, nap_us + nap_us / 2)`, which guarantees at least
`nap_us` microseconds. -/
def napNs (now wakeup : Nat) : Nat := ((wakeup - now) / 1000) * 1000

/-- Oracle outcome of one retry-loop iteration: the result of
`uvm_va_block_find_create_managed`, the result of
`uvm_va_block_cpu_fault` together with the wake-up timestamp and
migration flag it leaves in the service context, the time the attempt
itself consumes, and how far past the minimal sleep the scheduler lets
`usleep_range` run. -/
structure Attempt where
  findCreate : NvStatus
  faultStatus : NvStatus
  newWakeup : Nat
  didMigrate : Bool
  attemptElapsed : Nat
  sleepSlack : Nat
deriving DecidableEq, Repr

/-- Record of one executed iteration of the retry loop. -/
structure IterRec where
  entryStatus : NvStatus
  entryClock : Nat
  entryWakeup : Nat
  slept : Bool
  sleepDur : Nat
  events : List FEvent
  exitClock : Nat
  exitWakeup : Nat
  exitStatus : NvStatus
  exitMigrate : Bool
  broke : Bool
deriving DecidableEq, Repr

/-- The lock-held tail of one iteration: look up or create the block
(breaking out of the loop on failure, which the source asserts to be an
out-of-memory condition) and otherwise service the fault. -/
def iterTail (entryStatus : NvStatus) (entryClock entryWakeup : Nat)
    (slept : Bool) (d : Nat) (preEv : List FEvent) (c1 wakeup : Nat)
    (migr : Bool) (att : Attempt) : IterRec :=
  if att.findCreate ≠ NvStatus.ok then
    { entryStatus := entryStatus, entryClock := entryClock,
      entryWakeup := entryWakeup, slept := slept, sleepDur := d,
      events := preEv ++ [FEvent.findCreate],
      exitClock := c1 + att.attemptElapsed, exitWakeup := wakeup,
      exitStatus := att.findCreate, exitMigrate := migr, broke := true }
  else
    { entryStatus := entryStatus, entryClock := entryClock,
      entryWakeup := entryWakeup, slept := slept, sleepDur := d,
      events := preEv ++ [FEvent.findCreate, FEvent.serviceFault],
      exitClock := c1 + att.attemptElapsed, exitWakeup := att.newWakeup,
      exitStatus := att.faultStatus, exitMigrate := att.didMigrate, broke := false }

/-- One iteration of the retry loop.  When the previous attempt reported
"more processing required" the handler reads the clock, decides whether to
sleep (only when the wake-up timestamp lies in the future), records the
throttling start, releases the address-space lock, sleeps, reacquires the
lock and records the throttling end; the lock release and reacquisition
happen on this path even when no sleep is needed.  On the first iteration
(status OK) the lock is simply acquired. -/
def runIter (clock wakeup : Nat) (migr : Bool) (status : NvStatus)
    (att : Attempt) : IterRec :=
  if status = NvStatus.moreProcessing then
    if clock < wakeup then
      let d := napNs clock wakeup + att.sleepSlack
      iterTail status clock wakeup true d
        [FEvent.throttleStart, FEvent.upRead, FEvent.sleepFor d,
         FEvent.downRead, FEvent.throttleEnd]
        (clock + d) wakeup migr att
    else
      iterTail status clock wakeup false 0 [FEvent.upRead, FEvent.downRead]
        clock wakeup migr att
  else
    iterTail status clock wakeup false 0 [FEvent.downRead] clock wakeup migr att

/-- Aggregate result of the retry loop. -/
structure LoopOut where
  iters : List IterRec
  clock : Nat
  wakeup : Nat
  migr : Bool
  status : NvStatus
deriving DecidableEq, Repr

/-- The `do { ... } while (status == NV_WARN_MORE_PROCESSING_REQUIRED)`
loop, driven by the oracle script of attempt outcomes. -/
def faultLoop (clock wakeup : Nat) (migr : Bool) (status : NvStatus) :
    List Attempt → LoopOut
  | [] => { iters := [], clock := clock, wakeup := wakeup, migr := migr, status := status }
  | att :: rest =>
    let it := runIter clock wakeup migr status att
    if it.broke ∨ it.exitStatus ≠ NvStatus.moreProcessing then
      { iters := [it], clock := it.exitClock, wakeup := it.exitWakeup,
        migr := it.exitMigrate, status := it.exitStatus }
    else
      let res := faultLoop it.exitClock it.exitWakeup it.exitMigrate it.exitStatus rest
      { res with iters := it :: res.iters }

/-- Concatenated event trace of a list of iterations. -/
def joinEvents : List IterRec → List FEvent
  | [] => []
  | it :: t => it.events ++ joinEvents t

/-- Specification of one executed retry-loop iteration: a sleep happens
exactly when the previous attempt asked for more processing and the
wake-up timestamp lies in the future; a sleeping iteration's trace begins
with throttle-start, lock release, the sleep, lock reacquisition and
throttle-end, the sleep lasts at least the remaining wait rounded down to
whole microseconds (so the wake-up time is missed by less than one
microsecond), and the iteration carries exactly one
throttle-start/throttle-end pair; a non-sleeping iteration carries none;
and the clock never moves backwards. -/
def IterProp (it : IterRec) : Prop :=
  (it.slept = true ↔
    (it.entryStatus = NvStatus.moreProcessing ∧ it.entryClock < it.entryWakeup)) ∧
  (it.slept = true →
    (∃ rest, it.events
      = [FEvent.throttleStart, FEvent.upRead, FEvent.sleepFor it.sleepDur,
         FEvent.downRead, FEvent.throttleEnd] ++ rest) ∧
    napNs it.entryClock it.entryWakeup ≤ it.sleepDur ∧
    it.entryWakeup ≤ it.entryClock + it.sleepDur + 999 ∧
    it.entryClock + it.sleepDur ≤ it.exitClock ∧
    countEv it.events FEvent.throttleStart = 1 ∧
    countEv it.events FEvent.throttleEnd = 1 ∧
    countSleeps it.events = 1) ∧
  (it.slept = false →
    countEv it.events FEvent.throttleStart = 0 ∧
    countEv it.events FEvent.throttleEnd = 0 ∧
    countSleeps it.events = 0) ∧
  it.entryClock ≤ it.exitClock

/-- The host-kernel fault outcomes produced by the handler:
`VM_FAULT_NOPAGE` (with the major-fault flag), `VM_FAULT_OOM` and
`VM_FAULT_SIGBUS`. -/
inductive VmFaultRes
  | nopage (major : Bool)
  | oom
  | sigbus
deriving DecidableEq, Repr

/-- The `convert_error` switch at the end of `uvm_vm_fault`: OK and
BUSY_RETRY convert to NOPAGE (retry later), NO_MEMORY to OOM, every other
status to SIGBUS. -/
def convertError (status : NvStatus) (major : Bool) : VmFaultRes :=
  match status with
  | NvStatus.ok => VmFaultRes.nopage major
  | NvStatus.busyRetry => VmFaultRes.nopage major
  | NvStatus.noMemory => VmFaultRes.oom
  | _ => VmFaultRes.sigbus

/-- The reusable per-fault scratch state the handler cares about: the
wake-up timestamp consulted by the throttling logic and the migration
flag consulted for the major-fault bit.  A context taken from the pool
carries whatever the previous fault left in these fields. -/
structure Ctx where
  wakeupTimeStamp : Nat
  didMigrate : Bool
deriving DecidableEq, Repr

/-- `uvm_vm_fault`: bail out converting the global status when the driver
is non-operational; bail out with BUSY_RETRY when the power-management
trylock fails; acquire a service context (from the pool, else from the
heap, else fail with NO_MEMORY); explicitly zero its wake-up timestamp;
run the retry loop; record a fatal fault on terminal non-success; on
success replace the status by the outcome of the out-of-lock ECC check;
free the context and convert the final status, flagging a major fault
when the context says data was migrated. -/
def uvm_vm_fault (gs : NvStatus) (pmOk : Bool) (pool heapCtx : Option Ctx)
    (clock : Nat) (script : List Attempt) (eccStatus : NvStatus) :
    VmFaultRes × List FEvent :=
  if gs ≠ NvStatus.ok then (convertError gs false, [])
  else if ¬ pmOk then (convertError NvStatus.busyRetry false, [FEvent.pmTrylockFail])
  else
    match (match pool with | some c => some c | none => heapCtx) with
    | none => (convertError NvStatus.noMemory false, [FEvent.pmLock, FEvent.pmUnlock])
    | some ctx0 =>
      let ctx : Ctx := { ctx0 with wakeupTimeStamp := 0 }
      let out := faultLoop clock ctx.wakeupTimeStamp ctx.didMigrate NvStatus.ok script
      let fatalEv := if out.status ≠ NvStatus.ok then [FEvent.recordFatalFault] else []
      let finalStatus := if out.status = NvStatus.ok then eccStatus else out.status
      (convertError finalStatus out.migr,
       [FEvent.pmLock, FEvent.ctxAlloc] ++ joinEvents out.iters ++ fatalEv ++
         [FEvent.upRead, FEvent.ctxFree, FEvent.pmUnlock])

/-- Environment of one `uvm_mmap` call: global and per-session state plus
the oracle outcomes of the calls it makes. -/
structure MmapEnv where
  globalStatus : NvStatus
  initStatus : NvStatus
  mmEnabled : Bool
  vaSpaceMm : Nat
  pmTrylockOk : Bool
  wrapperAllocOk : Bool
  createStatus : NvStatus
  semaPoolMatch : Bool
  memMapStatus : NvStatus
deriving DecidableEq, Repr

/-- The requested mapping: bounds, file offset in pages, access flags and
the owning `mm`. -/
structure MmapReq where
  vmStart : Nat
  vmEnd : Nat
  vmPgoff : Nat
  flagShared : Bool
  flagRead : Bool
  flagWrite : Bool
  mm : Nat
deriving DecidableEq, Repr

/-- Return value of `uvm_mmap`, kept symbolic: 0 on success, the named
errno constants the source returns literally, and `-nv_status_to_errno`
of a status for the status-converted returns. -/
inductive LinuxRet
  | success
  | einval
  | ebadfd
  | eopnotsupp
  | enomem
  | fromStatus (s : NvStatus)
deriving DecidableEq, Repr

/-- Side effects of one `uvm_mmap` call: whether
`uvm_va_range_create_mmap` was ever invoked, whether the vma was disabled,
whether a wrapper survives the call, and which vm operations were left
installed. -/
structure MmapEff where
  createCalled : Bool
  vmaDisabled : Bool
  wrapperLive : Bool
  opsInstalled : Option VmOps
deriving DecidableEq, Repr

/-- `uvm_mmap`: gate on the global status, the session initialisation and
the owning `mm`; reject with EINVAL a request whose file offset differs
from its start address and one lacking any of the shared/read/write
flags; disable the vma and report success when the power-management
trylock fails; then allocate the wrapper, create the address-range
record, and fall back to the semaphore-pool re-mapping path when the
range collides with a matching pre-existing semaphore-pool range. -/
def uvm_mmap (pageShift : Nat) (env : MmapEnv) (req : MmapReq) :
    LinuxRet × MmapEff :=
  if env.globalStatus ≠ NvStatus.ok then
    (LinuxRet.fromStatus env.globalStatus, ⟨false, false, false, none⟩)
  else if env.initStatus ≠ NvStatus.ok then
    (LinuxRet.ebadfd, ⟨false, false, false, none⟩)
  else if env.mmEnabled ∧ env.vaSpaceMm ≠ req.mm then
    (LinuxRet.eopnotsupp, ⟨false, false, false, none⟩)
  else if req.vmStart ≠ req.vmPgoff * 2 ^ pageShift then
    (LinuxRet.einval, ⟨false, false, false, none⟩)
  else if ¬ (req.flagShared ∧ req.flagRead ∧ req.flagWrite) then
    (LinuxRet.einval, ⟨false, false, false, none⟩)
  else if ¬ env.pmTrylockOk then
    (LinuxRet.success, ⟨false, true, false, some VmOps.disabled⟩)
  else if ¬ env.wrapperAllocOk then
    (LinuxRet.enomem, ⟨false, false, false, some VmOps.managed⟩)
  else if env.createStatus = NvStatus.ok then
    (LinuxRet.success, ⟨true, false, true, some VmOps.managed⟩)
  else if env.createStatus = NvStatus.addressInUse ∧ env.semaPoolMatch then
    if env.memMapStatus = NvStatus.ok then
      (LinuxRet.success, ⟨true, false, false, some VmOps.semaphorePool⟩)
    else
      (LinuxRet.fromStatus env.memMapStatus, ⟨true, false, false, some VmOps.semaphorePool⟩)
  else
    (LinuxRet.fromStatus env.createStatus, ⟨true, false, false, some VmOps.managed⟩)

/-! ### Helper lemmas -/

theorem alloc_tracking_remove_heap (lc : Nat) (s : MState) (p : Addr) :
    (alloc_tracking_remove lc s p).heap = s.heap := by
  by_cases h0 : ZERO_OR_NULL_PTR p = true
  · simp [alloc_tracking_remove, h0]
  · by_cases h2 : 2 ≤ lc
    · rcases hf : assocFind s.infos p with _ | i <;>
        simp [alloc_tracking_remove, h0, h2, hf]
    · simp [alloc_tracking_remove, h0, h2]

theorem alloc_tracking_add_heap (lc : Nat) (s : MState) (p : Addr) (inf : Info)
    (iok : Bool) : (alloc_tracking_add lc s p inf iok).heap = s.heap := by
  by_cases h0 : ZERO_OR_NULL_PTR p = true
  · simp [alloc_tracking_add, h0]
  · by_cases h2 : 2 ≤ lc
    · by_cases hk : iok <;> simp [alloc_tracking_add, h0, h2, hk]
    · simp [alloc_tracking_add, h0, h2]

theorem alloc_tracking_add_bytes (lc : Nat) (s : MState) (p : Addr) (inf : Info)
    (iok : Bool) (h0 : ZERO_OR_NULL_PTR p = false) :
    (alloc_tracking_add lc s p inf iok).bytesAllocated
      = s.bytesAllocated + (uvm_kvsize s.heap p : Int) := by
  by_cases h2 : 2 ≤ lc
  · by_cases hk : iok <;> simp [alloc_tracking_add, h0, h2, hk]
  · simp [alloc_tracking_add, h0, h2]

theorem alloc_tracking_remove_bytes (lc : Nat) (s : MState) (p : Addr)
    (h0 : ZERO_OR_NULL_PTR p = false) :
    (alloc_tracking_remove lc s p).bytesAllocated
      = s.bytesAllocated - (uvm_kvsize s.heap p : Int) := by
  by_cases h2 : 2 ≤ lc
  · rcases hf : assocFind s.infos p with _ | i <;>
      simp [alloc_tracking_remove, h0, h2, hf]
  · simp [alloc_tracking_remove, h0, h2]

theorem assocFind_cons_self {β : Type} (a : Nat) (b : β) (l : List (Nat × β)) :
    assocFind ((a, b) :: l) a = some b := by
  simp [assocFind]

theorem assocErase_of_notfound {β : Type} (l : List (Nat × β)) (p : Nat)
    (h : assocFind l p = none) : assocErase l p = l := by
  induction l with
  | nil => rfl
  | cons hd tl ih =>
    obtain ⟨x, y⟩ := hd
    by_cases hx : x = p
    · simp [assocFind, hx] at h
    · simp only [assocFind, hx, if_false] at h
      simp [assocErase, hx, ih (by simpa using h)]

theorem assocFind_erase_ne {β : Type} (l : List (Nat × β)) (p q : Nat)
    (hne : q ≠ p) : assocFind (assocErase l p) q = assocFind l q := by
  induction l with
  | nil => rfl
  | cons hd tl ih =>
    obtain ⟨x, y⟩ := hd
    by_cases hx : x = p
    · subst hx
      have hxq : ¬ x = q := fun h => hne (h ▸ rfl)
      simp [assocErase, assocFind, hxq, ih]
    · simp [assocErase, assocFind, hx, ih]

theorem is_vmalloc_addr_find {h : Heap} {p : Addr}
    (hv : is_vmalloc_addr h p = true) :
    ∃ a, assocFind h p = some a ∧ a.isVmalloc = true := by
  unfold is_vmalloc_addr at hv
  rcases hf : assocFind h p with _ | a
  · rw [hf] at hv
    cases hv
  · rw [hf] at hv
    exact ⟨a, rfl, hv⟩

theorem realloc_from_vmalloc_fail_heap (T p n : Nat) (al : Option (Addr × Nat))
    (h : Heap) (hf : (realloc_from_vmalloc T p n al h).1 = none) :
    (realloc_from_vmalloc T p n al h).2 = h := by
  unfold realloc_from_vmalloc at hf ⊢
  rcases hfind : assocFind h p with _ | old
  · rfl
  · rw [hfind] at hf
    by_cases h0 : n = 0
    · simp [h0] at hf
    · simp only [h0, if_false] at hf ⊢
      by_cases he : n = old.reqSize
      · simp [he] at hf
      · simp only [he, if_false] at hf ⊢
        rcases hai : (alloc_internal T n false al h).1 with _ | np
        · simp [hai]
        · rw [hai] at hf
          simp at hf

theorem realloc_from_kmalloc_fail_heap (T p n : Nat)
    (kl al : Option (Addr × Nat)) (h : Heap)
    (hf : (realloc_from_kmalloc T p n kl al h).1 = none) :
    (realloc_from_kmalloc T p n kl al h).2 = h := by
  unfold realloc_from_kmalloc at hf ⊢
  by_cases hT : n ≤ T
  · simp only [hT, if_true] at hf ⊢
    unfold krealloc at hf ⊢
    by_cases h0 : n = 0
    · simp [h0] at hf
    · simp only [h0, if_false] at hf ⊢
      rcases hkl : kl with _ | a
      · rfl
      · rw [hkl] at hf
        obtain ⟨a1, a2⟩ := a
        simp at hf
  · simp only [hT, if_false] at hf ⊢
    rcases hai : (alloc_internal T n false al h).1 with _ | np
    · simp [hai]
    · rw [hai] at hf
      simp at hf

theorem realloc_dispatch_fail_heap (T p n : Nat) (kl al : Option (Addr × Nat))
    (h : Heap)
    (hf : (if is_vmalloc_addr h p then realloc_from_vmalloc T p n al h
           else realloc_from_kmalloc T p n kl al h).1 = none) :
    (if is_vmalloc_addr h p then realloc_from_vmalloc T p n al h
     else realloc_from_kmalloc T p n kl al h).2 = h := by
  by_cases hv : is_vmalloc_addr h p = true
  · rw [if_pos hv] at hf ⊢
    exact realloc_from_vmalloc_fail_heap T p n al h hf
  · simp only [Bool.not_eq_true] at hv
    rw [hv] at hf ⊢
    simp only [Bool.false_eq_true, if_false] at hf ⊢
    exact realloc_from_kmalloc_fail_heap T p n kl al h hf

theorem realloc_dispatch_zero_some (T p : Nat) (kl al : Option (Addr × Nat))
    (h : Heap) :
    (if is_vmalloc_addr h p then realloc_from_vmalloc T p 0 al h
     else realloc_from_kmalloc T p 0 kl al h).1 = some ZERO_SIZE_PTR := by
  by_cases hv : is_vmalloc_addr h p = true
  · obtain ⟨old, hfind, _⟩ := is_vmalloc_addr_find hv
    simp [hv, realloc_from_vmalloc, hfind]
  · simp only [Bool.not_eq_true] at hv
    simp [hv, realloc_from_kmalloc, krealloc]

theorem kvrealloc_pull_spec (lc p n : Nat) (s : MState) (hlc : lc ≠ 0)
    (hn : n ≠ 0) :
    (kvrealloc_pull lc p n s).2.heap = s.heap ∧
    (kvrealloc_pull lc p n s).2.bytesAllocated
      = s.bytesAllocated - (uvm_kvsize s.heap p : Int) ∧
    ((2 ≤ lc ∧ ∃ i, (kvrealloc_pull lc p n s).1 = some i ∧
        assocFind s.infos p = some i ∧
        (kvrealloc_pull lc p n s).2.infos = assocErase s.infos p) ∨
     ((kvrealloc_pull lc p n s).1 = none ∧
        (kvrealloc_pull lc p n s).2.infos = s.infos)) := by
  by_cases h2 : 2 ≤ lc
  · rcases hf : assocFind s.infos p with _ | i
    · simp [kvrealloc_pull, hlc, hn, h2, hf]
    · simp [kvrealloc_pull, hlc, hn, h2, hf]
  · simp [kvrealloc_pull, hlc, hn, h2]

theorem assocFind_cons_ne {β : Type} (a : Nat) (b : β) (l : List (Nat × β))
    (q : Nat) (h : ¬ a = q) : assocFind ((a, b) :: l) q = assocFind l q := by
  simp [assocFind, h]

theorem kvrealloc_settle_fail_heap (lc n : Nat) (p : Addr) (inf : Info)
    (iok : Bool) (old : Nat) (pi : Option Info) (s2 : MState) (hlc : lc ≠ 0) :
    (kvrealloc_settle lc n p inf iok old pi none s2).heap = s2.heap := by
  by_cases h2 : 2 ≤ lc <;> rcases pi with _ | i <;>
    simp [kvrealloc_settle, hlc, h2]

theorem kvrealloc_settle_fail_bytes (lc n : Nat) (p : Addr) (inf : Info)
    (iok : Bool) (old : Nat) (pi : Option Info) (s2 : MState) (hlc : lc ≠ 0) :
    (kvrealloc_settle lc n p inf iok old pi none s2).bytesAllocated
      = s2.bytesAllocated + (old : Int) := by
  by_cases h2 : 2 ≤ lc <;> rcases pi with _ | i <;>
    simp [kvrealloc_settle, hlc, h2]

theorem kvrealloc_settle_fail_infos_some (lc n : Nat) (p : Addr) (inf : Info)
    (iok : Bool) (old : Nat) (pi : Option Info) (s2 : MState) (i : Info)
    (h2 : 2 ≤ lc) (hpi : pi = some i) :
    (kvrealloc_settle lc n p inf iok old pi none s2).infos
      = (p, i) :: s2.infos := by
  have hlc : lc ≠ 0 := by omega
  simp [kvrealloc_settle, hlc, h2, hpi]

theorem kvrealloc_settle_fail_infos_none (lc n : Nat) (p : Addr) (inf : Info)
    (iok : Bool) (old : Nat) (pi : Option Info) (s2 : MState)
    (hlc : lc ≠ 0) (hpi : pi = none) :
    (kvrealloc_settle lc n p inf iok old pi none s2).infos = s2.infos := by
  by_cases h2 : 2 ≤ lc <;> simp [kvrealloc_settle, hlc, h2, hpi]

theorem kvrealloc_fail_state (lc n : Nat) (p : Addr) (inf : Info) (iok : Bool)
    (s sm : MState) (pi : Option Info) (hlc : lc ≠ 0)
    (hmh : sm.heap = s.heap)
    (hmb : sm.bytesAllocated = s.bytesAllocated - (uvm_kvsize s.heap p : Int))
    (hinfo : (2 ≤ lc ∧ ∃ i, pi = some i ∧ assocFind s.infos p = some i ∧
        sm.infos = assocErase s.infos p) ∨ (pi = none ∧ sm.infos = s.infos)) :
    (kvrealloc_settle lc n p inf iok (uvm_kvsize s.heap p) pi none sm).heap
      = s.heap ∧
    (kvrealloc_settle lc n p inf iok (uvm_kvsize s.heap p) pi none sm).bytesAllocated
      = s.bytesAllocated ∧
    (∀ q, assocFind
        (kvrealloc_settle lc n p inf iok (uvm_kvsize s.heap p) pi none sm).infos q
      = assocFind s.infos q) := by
  refine ⟨?_, ?_, ?_⟩
  · rw [kvrealloc_settle_fail_heap lc n p inf iok _ pi sm hlc]
    exact hmh
  · rw [kvrealloc_settle_fail_bytes lc n p inf iok _ pi sm hlc, hmb]
    omega
  · rcases hinfo with ⟨h2, i, hpi, hfi, hmi⟩ | ⟨hpi, hmi⟩
    · rw [kvrealloc_settle_fail_infos_some lc n p inf iok _ pi sm i h2 hpi, hmi]
      intro q
      by_cases hq : q = p
      · subst hq
        rw [assocFind_cons_self, hfi]
      · rw [assocFind_cons_ne p i _ q (fun h => hq h.symm),
          assocFind_erase_ne s.infos p q hq]
    · rw [kvrealloc_settle_fail_infos_none lc n p inf iok _ pi sm hlc hpi, hmi]
      intro q
      rfl

theorem uvm_kvfree_fields (lc : Nat) (p : Addr) (s3 : MState) (hpz : ¬ p = 0)
    (hnp : ZERO_OR_NULL_PTR p = false) :
    (uvm_kvfree lc p s3).heap = assocErase s3.heap p ∧
    (lc ≠ 0 → (uvm_kvfree lc p s3).bytesAllocated
      = s3.bytesAllocated - (uvm_kvsize s3.heap p : Int)) ∧
    (lc = 0 → (uvm_kvfree lc p s3).bytesAllocated = s3.bytesAllocated) := by
  by_cases hlc : lc = 0
  · simp [uvm_kvfree, hpz, hlc]
  · simp [uvm_kvfree, hpz, hlc, alloc_tracking_remove_heap,
      alloc_tracking_remove_bytes lc s3 p hnp]

theorem rangeInVma_of_inside {r : VaRange} {v : Vma}
    (h1 : v.vmStart ≤ r.rStart) (h2 : r.rEnd < v.vmEnd) (h3 : r.rStart ≤ r.rEnd) :
    rangeInVma r v = true := by
  simp only [rangeInVma, Bool.and_eq_true, decide_eq_true_eq]
  omega

theorem open_failure_disables (st : OpenState)
    (hwfr : ∀ r ∈ st.ranges, r.rStart ≤ r.rEnd)
    (hrefs : ∀ r ∈ st.ranges, r.vmaRef = st.original.id →
      st.original.vmStart ≤ r.rStart ∧ r.rEnd < st.original.vmEnd) :
    (uvm_vm_open_failure st).original.ops = VmOps.disabled ∧
    (uvm_vm_open_failure st).original.hasWrapper = false ∧
    (uvm_vm_open_failure st).original.ptesMapped = false ∧
    (uvm_vm_open_failure st).vma.ops = VmOps.disabled ∧
    (uvm_vm_open_failure st).vma.hasWrapper = false ∧
    (uvm_vm_open_failure st).vma.ptesMapped = false ∧
    ∀ r ∈ (uvm_vm_open_failure st).ranges, r.vmaRef ≠ st.original.id := by
  refine ⟨rfl, rfl, rfl, rfl, rfl, rfl, ?_⟩
  intro r hr hid
  have hmem := List.mem_filter.mp hr
  have hout : rangeInVma r st.original = false := by
    have := hmem.2
    simp only [Bool.not_eq_true'] at this
    exact this
  have hin := hrefs r hmem.1 hid
  have hwf := hwfr r hmem.1
  rw [rangeInVma_of_inside hin.1 hin.2 hwf] at hout
  cases hout

theorem countEv_append (l1 l2 : List FEvent) (x : FEvent) :
    countEv (l1 ++ l2) x = countEv l1 x + countEv l2 x := by
  induction l1 with
  | nil => simp [countEv]
  | cons e t ih =>
    simp only [List.cons_append, countEv, List.append_eq, ih]
    omega

theorem countSleeps_append (l1 l2 : List FEvent) :
    countSleeps (l1 ++ l2) = countSleeps l1 + countSleeps l2 := by
  induction l1 with
  | nil => simp [countSleeps]
  | cons e t ih =>
    cases e <;>
      (simp only [List.cons_append, countSleeps, List.append_eq, ih]; try omega)

theorem runIter_prop (clock wakeup : Nat) (migr : Bool) (status : NvStatus)
    (att : Attempt) : IterProp (runIter clock wakeup migr status att) := by
  unfold IterProp runIter iterTail
  by_cases hs : status = NvStatus.moreProcessing <;>
    by_cases hw : clock < wakeup <;>
    by_cases hf : att.findCreate = NvStatus.ok <;>
    simp [hs, hw, hf, countEv, countSleeps] <;>
    simp [napNs] <;>
    omega

theorem runIter_exitClock_ge (clock wakeup : Nat) (migr : Bool)
    (status : NvStatus) (att : Attempt) :
    clock ≤ (runIter clock wakeup migr status att).exitClock := by
  unfold runIter iterTail
  by_cases hs : status = NvStatus.moreProcessing <;>
    by_cases hw : clock < wakeup <;>
    by_cases hf : att.findCreate = NvStatus.ok <;>
    simp [hs, hw, hf] <;>
    omega

theorem faultLoop_clock_mono (c w : Nat) (m : Bool) (st : NvStatus)
    (sc : List Attempt) : c ≤ (faultLoop c w m st sc).clock := by
  induction sc generalizing c w m st with
  | nil => exact Nat.le_refl c
  | cons att rest ih =>
    simp only [faultLoop]
    split
    · exact runIter_exitClock_ge c w m st att
    · exact Nat.le_trans (runIter_exitClock_ge c w m st att)
        (ih (runIter c w m st att).exitClock (runIter c w m st att).exitWakeup
          (runIter c w m st att).exitMigrate (runIter c w m st att).exitStatus)

theorem faultLoop_iters_spec (c w : Nat) (m : Bool) (st : NvStatus)
    (sc : List Attempt) :
    ∀ it ∈ (faultLoop c w m st sc).iters,
      IterProp it ∧ it.exitClock ≤ (faultLoop c w m st sc).clock := by
  induction sc generalizing c w m st with
  | nil =>
    intro it hit
    simp [faultLoop] at hit
  | cons att rest ih =>
    intro it hit
    simp only [faultLoop] at hit ⊢
    by_cases hstop : (runIter c w m st att).broke ∨
        (runIter c w m st att).exitStatus ≠ NvStatus.moreProcessing
    · rw [if_pos hstop] at hit ⊢
      have heq : it = runIter c w m st att := by
        simpa using hit
      subst heq
      exact ⟨runIter_prop c w m st att, Nat.le_refl _⟩
    · rw [if_neg hstop] at hit ⊢
      rcases List.mem_cons.mp hit with heq | hmem
      · subst heq
        refine ⟨runIter_prop c w m st att, ?_⟩
        exact faultLoop_clock_mono (runIter c w m st att).exitClock
          (runIter c w m st att).exitWakeup (runIter c w m st att).exitMigrate
          (runIter c w m st att).exitStatus rest
      · exact ih (runIter c w m st att).exitClock (runIter c w m st att).exitWakeup
          (runIter c w m st att).exitMigrate (runIter c w m st att).exitStatus
          it hmem

theorem joinEvents_counts (its : List IterRec) (h : ∀ it ∈ its, IterProp it) :
    countEv (joinEvents its) FEvent.throttleStart = countSleeps (joinEvents its) ∧
    countEv (joinEvents its) FEvent.throttleEnd = countSleeps (joinEvents its) := by
  induction its with
  | nil => simp [joinEvents, countEv, countSleeps]
  | cons it t ih =>
    have hp := h it (List.mem_cons_self _ _)
    have iht := ih (fun x hx => h x (List.mem_cons_of_mem _ hx))
    simp only [joinEvents, countEv_append, countSleeps_append]
    rcases hsl : it.slept with _ | _
    · have h0 := hp.2.2.1 hsl
      rw [h0.1, h0.2.1, h0.2.2, iht.1, iht.2]
      exact ⟨rfl, rfl⟩
    · have h1 := hp.2.1 hsl
      rw [h1.2.2.2.2.1, h1.2.2.2.2.2.1, h1.2.2.2.2.2.2, iht.1, iht.2]
      exact ⟨rfl, rfl⟩

/-! ### Claim theorems -/

/-- Claim C4: `allocate` dispatches on the fixed threshold
`UVM_KMALLOC_THRESHOLD + 1` (parameter `T` is the source constant
`UVM_KMALLOC_THRESHOLD`): requested sizes below the threshold go to the
small-object allocator (kmalloc) directly, sizes at or above it go to the
large-object allocator (vmalloc) with a hidden header recording the
originally requested size; and `size_of` dispatches on which allocator
owns the address, returning the header's stored size for large-object
allocations and `ksize` otherwise. -/
theorem alloc_internal_threshold_dispatch (T size : Nat) (z : Bool)
    (a ksz : Nat) (h : Heap) :
    (size < T + 1 →
      alloc_internal T size z (some (a, ksz)) h
        = (some a, (a, ⟨false, size, ksz⟩) :: h)) ∧
    (T + 1 ≤ size →
      alloc_internal T size z (some (a, ksz)) h
        = (some a, (a, ⟨true, size, size⟩) :: h)) ∧
    (∀ p r, assocFind h p = some r → r.isVmalloc = true →
      uvm_kvsize h p = r.reqSize) ∧
    (∀ p r, assocFind h p = some r → r.isVmalloc = false →
      uvm_kvsize h p = r.kSize) := by
  refine ⟨fun h1 => ?_, fun h2 => ?_, fun p r hf hv => ?_, fun p r hf hv => ?_⟩
  · have : size ≤ T := by omega
    simp [alloc_internal, this]
  · have : ¬ size ≤ T := by omega
    simp [alloc_internal, this]
  · simp [uvm_kvsize, hf, hv]
  · simp [uvm_kvsize, hf, hv]

theorem alloc_internal_threshold_dispatch_witness :
    alloc_internal 4096 5 false (some (100, 8)) []
      = (some 100, [(100, ⟨false, 5, 8⟩)]) ∧
    alloc_internal 4096 5000 false (some (200, 5000)) []
      = (some 200, [(200, ⟨true, 5000, 5000⟩)]) ∧
    uvm_kvsize [(200, ⟨true, 5000, 5000⟩)] 200 = 5000 ∧
    uvm_kvsize [(100, ⟨false, 5, 8⟩)] 100 = 8 :=
  ⟨(alloc_internal_threshold_dispatch 4096 5 false 100 8 []).1 (by decide),
   (alloc_internal_threshold_dispatch 4096 5000 false 200 5000 []).2.1 (by decide),
   (alloc_internal_threshold_dispatch 4096 5000 false 200 5000
      [(200, ⟨true, 5000, 5000⟩)]).2.2.1 200 ⟨true, 5000, 5000⟩ (by decide) rfl,
   (alloc_internal_threshold_dispatch 4096 5 false 100 8
      [(100, ⟨false, 5, 8⟩)]).2.2.2 100 ⟨false, 5, 8⟩ (by decide) rfl⟩

/-- Claim C5: reallocating the null pointer behaves as `allocate`, and
reallocating a live pointer to size 0 behaves exactly as `free` of that
pointer while returning the `ZERO_SIZE_PTR` sentinel, which is distinct
from the null result of a failed reallocation. -/
theorem kvrealloc_null_and_zero (T lc n p : Nat) (inf : Info)
    (kl al ml : Option (Addr × Nat)) (iok : Bool) (s : MState)
    (hp : ZERO_SIZE_PTR < p) :
    uvm_kvrealloc_impl T lc 0 n inf kl al ml iok s
      = uvm_kvmalloc_impl T lc n inf ml iok s ∧
    uvm_kvrealloc_impl T lc p 0 inf kl al ml iok s
      = (some ZERO_SIZE_PTR, uvm_kvfree lc p s) ∧
    ZERO_SIZE_PTR ≠ 0 := by
  have hp16 : 16 < p := hp
  have hzle : ¬ (p ≤ ZERO_SIZE_PTR) := by
    simp only [ZERO_SIZE_PTR]
    omega
  have hnp : ZERO_OR_NULL_PTR p = false := decide_eq_false hzle
  refine ⟨?_, ?_, by decide⟩
  · simp [uvm_kvrealloc_impl, ZERO_OR_NULL_PTR, ZERO_SIZE_PTR]
  · by_cases hlc : lc = 0
    · subst hlc
      simp only [uvm_kvrealloc_impl, kvrealloc_pull, kvrealloc_settle, hnp,
        Bool.false_eq_true, if_false, ne_eq, not_true_eq_false, uvm_kvfree]
      have hpz : ¬ p = 0 := by omega
      simp only [hpz, if_false, if_true, not_false_eq_true]
      by_cases hv : is_vmalloc_addr s.heap p = true
      · rcases hfind : assocFind s.heap p with _ | old
        · rw [is_vmalloc_addr, hfind] at hv
          simp at hv
        · simp [realloc_from_vmalloc, hfind, hv]
      · simp only [Bool.not_eq_true] at hv
        simp [hv, realloc_from_kmalloc, krealloc]
    · simp only [uvm_kvrealloc_impl, kvrealloc_pull, kvrealloc_settle, hnp,
        Bool.false_eq_true, if_false, ne_eq, hlc, not_false_eq_true, if_true,
        uvm_kvfree]
      have hpz : ¬ p = 0 := by omega
      simp only [hpz, if_false, if_true, not_false_eq_true]
      have hheap : (alloc_tracking_remove lc s p).heap = s.heap :=
        alloc_tracking_remove_heap lc s p
      by_cases hv : is_vmalloc_addr s.heap p = true
      · rcases hfind : assocFind s.heap p with _ | old
        · rw [is_vmalloc_addr, hfind] at hv
          simp at hv
        · simp [realloc_from_vmalloc, hheap, hfind, hv]
      · simp only [Bool.not_eq_true] at hv
        simp [hheap, hv, realloc_from_kmalloc, krealloc]

theorem kvrealloc_null_and_zero_witness :
    uvm_kvrealloc_impl 4096 2 0 7 ⟨"f.c", 1, "g"⟩ none none (some (100, 8)) true
        ⟨[(100, ⟨false, 5, 8⟩)], 8, 0, [(100, ⟨"f.c", 1, "g"⟩)]⟩
      = uvm_kvmalloc_impl 4096 2 7 ⟨"f.c", 1, "g"⟩ (some (100, 8)) true
        ⟨[(100, ⟨false, 5, 8⟩)], 8, 0, [(100, ⟨"f.c", 1, "g"⟩)]⟩ ∧
    uvm_kvrealloc_impl 4096 2 100 0 ⟨"f.c", 1, "g"⟩ none none (some (100, 8)) true
        ⟨[(100, ⟨false, 5, 8⟩)], 8, 0, [(100, ⟨"f.c", 1, "g"⟩)]⟩
      = (some ZERO_SIZE_PTR,
         uvm_kvfree 2 100 ⟨[(100, ⟨false, 5, 8⟩)], 8, 0, [(100, ⟨"f.c", 1, "g"⟩)]⟩) ∧
    ZERO_SIZE_PTR ≠ 0 :=
  kvrealloc_null_and_zero 4096 2 7 100 ⟨"f.c", 1, "g"⟩ none none (some (100, 8)) true
    ⟨[(100, ⟨false, 5, 8⟩)], 8, 0, [(100, ⟨"f.c", 1, "g"⟩)]⟩ (by decide)

/-- Claim C8: when the non-blocking power-management lock acquisition
fails, the release callback schedules the teardown on the deferred-release
queue and returns success immediately, performing no teardown and no
blocking acquisition itself; the deferred task then performs the teardown
under a blocking acquisition of the same lock. -/
theorem release_defers_on_trylock_failure (trylockOk : Bool)
    (h : trylockOk = false) :
    (uvm_release trylockOk).1 = 0 ∧
    REvent.scheduleDeferred ∈ (uvm_release trylockOk).2 ∧
    REvent.vaSpaceDestroy ∉ (uvm_release trylockOk).2 ∧
    REvent.pmDownReadBlock ∉ (uvm_release trylockOk).2 ∧
    uvm_release_deferred
      = [REvent.pmDownReadBlock, REvent.vaSpaceDestroy, REvent.pmUpRead] := by
  subst h
  decide

theorem release_defers_on_trylock_failure_witness :
    (uvm_release false).1 = 0 ∧
    REvent.scheduleDeferred ∈ (uvm_release false).2 ∧
    REvent.vaSpaceDestroy ∉ (uvm_release false).2 ∧
    REvent.pmDownReadBlock ∉ (uvm_release false).2 ∧
    uvm_release_deferred
      = [REvent.pmDownReadBlock, REvent.vaSpaceDestroy, REvent.pmUpRead] :=
  release_defers_on_trylock_failure false rfl

/-- Claim C9: the fault handler's behaviour is independent of the value
the wake-up timestamp field held when the service context was acquired,
whether the context came from the pool or from the fallback heap
allocation, because the field is explicitly reset to zero after
acquisition and before first use. -/
theorem fault_ctx_wakeup_reset (gs : NvStatus) (pmOk : Bool) (w1 w2 : Nat)
    (dm : Bool) (hc : Option Ctx) (clock : Nat) (script : List Attempt)
    (ecc : NvStatus) :
    uvm_vm_fault gs pmOk (some ⟨w1, dm⟩) hc clock script ecc
      = uvm_vm_fault gs pmOk (some ⟨w2, dm⟩) hc clock script ecc ∧
    uvm_vm_fault gs pmOk none (some ⟨w1, dm⟩) clock script ecc
      = uvm_vm_fault gs pmOk none (some ⟨w2, dm⟩) clock script ecc := by
  constructor <;> rfl

/-- Claim C3, counterexample: with the global driver status
non-operational (a general error status) the handler returns
`VM_FAULT_SIGBUS`, which is not the retry-later outcome
`VM_FAULT_NOPAGE`. -/
theorem fault_global_error_not_retry :
    (uvm_vm_fault NvStatus.errOther true none none 0 [] NvStatus.ok).1
      = VmFaultRes.sigbus ∧
    (uvm_vm_fault NvStatus.errOther true none none 0 [] NvStatus.ok).2 = [] ∧
    VmFaultRes.sigbus ≠ VmFaultRes.nopage false ∧
    VmFaultRes.sigbus ≠ VmFaultRes.nopage true := by
  decide

/-- Claim C3, amended: if the global driver status is non-operational or
the power-management trylock fails, the entire fault resolution is
skipped: no service context is acquired, the address-space lock is never
taken, and no block lookup or fault servicing is attempted.  When the
trylock fails the handler returns the retry-later outcome
(`VM_FAULT_NOPAGE`); when the global status is non-operational the
outcome is that status converted by `convert_error` (retry-later only for
OK or BUSY_RETRY, out-of-memory for NO_MEMORY, SIGBUS otherwise). -/
theorem fault_skips_when_unavailable (gs : NvStatus) (pmOk : Bool)
    (pool hc : Option Ctx) (clock : Nat) (script : List Attempt)
    (ecc : NvStatus) (h : gs ≠ NvStatus.ok ∨ pmOk = false) :
    countEv (uvm_vm_fault gs pmOk pool hc clock script ecc).2 FEvent.ctxAlloc = 0 ∧
    countEv (uvm_vm_fault gs pmOk pool hc clock script ecc).2 FEvent.downRead = 0 ∧
    countEv (uvm_vm_fault gs pmOk pool hc clock script ecc).2 FEvent.findCreate = 0 ∧
    countEv (uvm_vm_fault gs pmOk pool hc clock script ecc).2 FEvent.serviceFault = 0 ∧
    (gs = NvStatus.ok → (uvm_vm_fault gs pmOk pool hc clock script ecc).1
      = VmFaultRes.nopage false) ∧
    (gs ≠ NvStatus.ok → (uvm_vm_fault gs pmOk pool hc clock script ecc).1
      = convertError gs false) := by
  rcases h with hgs | hpm
  · simp [uvm_vm_fault, hgs, countEv]
  · by_cases hgs : gs = NvStatus.ok
    · subst hgs
      simp [uvm_vm_fault, hpm, countEv, convertError]
    · simp [uvm_vm_fault, hgs, countEv]

theorem fault_skips_when_unavailable_witness :
    countEv (uvm_vm_fault NvStatus.ok false none none 0 [] NvStatus.ok).2
      FEvent.ctxAlloc = 0 ∧
    countEv (uvm_vm_fault NvStatus.ok false none none 0 [] NvStatus.ok).2
      FEvent.downRead = 0 ∧
    countEv (uvm_vm_fault NvStatus.ok false none none 0 [] NvStatus.ok).2
      FEvent.findCreate = 0 ∧
    countEv (uvm_vm_fault NvStatus.ok false none none 0 [] NvStatus.ok).2
      FEvent.serviceFault = 0 ∧
    (uvm_vm_fault NvStatus.ok false none none 0 [] NvStatus.ok).1
      = VmFaultRes.nopage false :=
  have h := fault_skips_when_unavailable NvStatus.ok false none none 0 [] NvStatus.ok
    (Or.inr rfl)
  ⟨h.1, h.2.1, h.2.2.1, h.2.2.2.1, h.2.2.2.2.1 rfl⟩

/-- Claim C6: a mapping-establishment request whose file offset does not
equal its start virtual address, or which lacks any of the shared, read
and write flags, never reaches address-range creation; and when the
request passes the session gates (operational global status, initialised
session, matching mm) the rejection is the invalid-argument error. -/
theorem mmap_rejects_invalid (ps : Nat) (env : MmapEnv) (req : MmapReq)
    (hbad : req.vmStart ≠ req.vmPgoff * 2 ^ ps ∨
      ¬ (req.flagShared ∧ req.flagRead ∧ req.flagWrite)) :
    (uvm_mmap ps env req).2.createCalled = false ∧
    (env.globalStatus = NvStatus.ok → env.initStatus = NvStatus.ok →
      (env.mmEnabled → env.vaSpaceMm = req.mm) →
      (uvm_mmap ps env req).1 = LinuxRet.einval) := by
  unfold uvm_mmap
  rcases hbad with hb | hb <;>
    · repeat' split
      all_goals simp_all

/-- Claim C2: on a mapping-split notification for a managed mapping, if
any step of the split sequence fails (wrapper allocation failure, or
failure of `uvm_va_range_split` at a boundary falling strictly inside an
existing record), both the original and the new mapping end up disabled —
page-table entries unmapped, fault-fails vm operations installed,
wrappers dropped — and no address-range record remains that references
the pre-split original mapping object. -/
theorem open_managed_failure_disables_both (st : OpenState) (w sp : Bool)
    (st' : OpenState)
    (hmm : st.vma.mm = st.original.mm)
    (hside : st.vma.vmStart = st.original.vmStart ∨ st.vma.vmEnd = st.original.vmEnd)
    (hcont : st.original.vmStart ≤ st.vma.vmStart ∧ st.vma.vmEnd ≤ st.original.vmEnd)
    (hwfr : ∀ r ∈ st.ranges, r.rStart ≤ r.rEnd)
    (hrefs : ∀ r ∈ st.ranges, r.vmaRef = st.original.id →
      st.original.vmStart ≤ r.rStart ∧ r.rEnd < st.original.vmEnd)
    (hfail : w = false ∨
      (sp = false ∧ ∃ r, findRange st.ranges
          (if st.vma.vmStart = st.original.vmStart then st.vma.vmEnd - 1
           else st.vma.vmStart - 1) = some r ∧
        r.rEnd ≠ (if st.vma.vmStart = st.original.vmStart then st.vma.vmEnd - 1
           else st.vma.vmStart - 1)))
    (hres : uvm_vm_open_managed st w sp = some st') :
    st'.original.ops = VmOps.disabled ∧ st'.original.hasWrapper = false ∧
    st'.original.ptesMapped = false ∧
    st'.vma.ops = VmOps.disabled ∧ st'.vma.hasWrapper = false ∧
    st'.vma.ptesMapped = false ∧
    ∀ r ∈ st'.ranges, r.vmaRef ≠ st.original.id := by
  have hnot1 : ¬ (st.vma.mm ≠ st.original.mm ∨
      (st.vma.vmStart ≠ st.original.vmStart ∧ st.vma.vmEnd ≠ st.original.vmEnd)) := by
    rcases hside with h | h <;> simp [hmm, h]
  simp only [uvm_vm_open_managed] at hres
  rw [if_neg hnot1, if_neg (not_not_intro hcont)] at hres
  cases w with
  | false =>
    simp only [Bool.false_eq_true, not_false_eq_true, if_true, Option.some.injEq] at hres
    subst hres
    exact open_failure_disables _ hwfr hrefs
  | true =>
    rcases hfail with hw0 | ⟨hsp, r0, hfind, hne⟩
    · cases hw0
    · subst hsp
      simp only [eq_self_iff_true, not_true, if_false, hfind] at hres
      rw [if_pos hne] at hres
      simp only [Bool.false_eq_true, if_false, Option.some.injEq] at hres
      subst hres
      exact open_failure_disables _ hwfr hrefs

theorem open_managed_failure_disables_both_witness :
    uvm_vm_open_managed
        ⟨⟨1, 0, 32, 7, VmOps.managed, true, true⟩,
         ⟨2, 0, 16, 7, VmOps.managed, true, true⟩,
         [⟨0, 31, 1⟩]⟩ true false
      = some
        ⟨⟨1, 0, 32, 7, VmOps.disabled, false, false⟩,
         ⟨2, 0, 16, 7, VmOps.disabled, false, false⟩, []⟩ ∧
    ([] : List VaRange) = [] := by
  refine ⟨?_, rfl⟩
  have h := open_managed_failure_disables_both
    ⟨⟨1, 0, 32, 7, VmOps.managed, true, true⟩,
     ⟨2, 0, 16, 7, VmOps.managed, true, true⟩,
     [⟨0, 31, 1⟩]⟩ true false
    ((uvm_vm_open_managed
      ⟨⟨1, 0, 32, 7, VmOps.managed, true, true⟩,
       ⟨2, 0, 16, 7, VmOps.managed, true, true⟩,
       [⟨0, 31, 1⟩]⟩ true false).get (by decide))
    rfl (Or.inl rfl) (by decide) (by decide) (by decide)
    (Or.inr ⟨rfl, ⟨0, 31, 1⟩, by decide, by decide⟩)
    (by decide)
  decide

theorem mmap_rejects_invalid_witness :
    (uvm_mmap 12
      ⟨NvStatus.ok, NvStatus.ok, true, 5, true, true, NvStatus.ok, false, NvStatus.ok⟩
      ⟨4096, 8192, 2, true, true, true, 5⟩).2.createCalled = false ∧
    (uvm_mmap 12
      ⟨NvStatus.ok, NvStatus.ok, true, 5, true, true, NvStatus.ok, false, NvStatus.ok⟩
      ⟨4096, 8192, 2, true, true, true, 5⟩).1 = LinuxRet.einval :=
  have h := mmap_rejects_invalid 12
    ⟨NvStatus.ok, NvStatus.ok, true, 5, true, true, NvStatus.ok, false, NvStatus.ok⟩
    ⟨4096, 8192, 2, true, true, true, 5⟩ (Or.inl (by decide))
  ⟨h.1, h.2 rfl rfl (fun _ => rfl)⟩

/-- Claim C1: when a reallocation of a live allocation fails (returns
null), the original allocation is left valid and unmodified — the heap is
unchanged — and the leak-tracking state is restored: the aggregate byte
counter returns to its prior value and the per-allocation origin table is
unchanged as a map.  Consequently a subsequent `size_of(p)` returns the
original size and `free(p)` frees the original allocation correctly,
removing it from the heap and releasing exactly its tracked bytes. -/
theorem realloc_failure_restores (T lc p newSize : Nat) (inf : Info)
    (kl al ml : Option (Addr × Nat)) (iok : Bool) (s : MState)
    (hp : ZERO_SIZE_PTR < p)
    (hfail : (uvm_kvrealloc_impl T lc p newSize inf kl al ml iok s).1 = none) :
    (uvm_kvrealloc_impl T lc p newSize inf kl al ml iok s).2.heap = s.heap ∧
    (uvm_kvrealloc_impl T lc p newSize inf kl al ml iok s).2.bytesAllocated
      = s.bytesAllocated ∧
    (∀ q, assocFind
        (uvm_kvrealloc_impl T lc p newSize inf kl al ml iok s).2.infos q
      = assocFind s.infos q) ∧
    uvm_kvsize (uvm_kvrealloc_impl T lc p newSize inf kl al ml iok s).2.heap p
      = uvm_kvsize s.heap p ∧
    (uvm_kvfree lc p
        (uvm_kvrealloc_impl T lc p newSize inf kl al ml iok s).2).heap
      = assocErase s.heap p ∧
    (lc ≠ 0 →
      (uvm_kvfree lc p
        (uvm_kvrealloc_impl T lc p newSize inf kl al ml iok s).2).bytesAllocated
      = s.bytesAllocated - (uvm_kvsize s.heap p : Int)) := by
  have hp16 : 16 < p := hp
  have hzle : ¬ (p ≤ ZERO_SIZE_PTR) := by
    simp only [ZERO_SIZE_PTR]
    omega
  have hnp : ZERO_OR_NULL_PTR p = false := decide_eq_false hzle
  have hpz : ¬ p = 0 := by omega
  simp only [uvm_kvrealloc_impl, hnp, Bool.false_eq_true, if_false] at hfail ⊢
  by_cases hlc : lc = 0
  · subst hlc
    have hpull : kvrealloc_pull 0 p newSize s = (none, s) := by
      simp [kvrealloc_pull]
    simp only [hpull] at hfail ⊢
    have hr2 := realloc_dispatch_fail_heap T p newSize kl al s.heap hfail
    rw [hfail, hr2]
    have hsettle : ∀ s2 : MState,
        kvrealloc_settle 0 newSize p inf iok (uvm_kvsize s.heap p) none none s2
          = s2 := by
      intro s2
      simp [kvrealloc_settle]
    rw [hsettle]
    have hk := uvm_kvfree_fields 0 p { s with heap := s.heap } hpz hnp
    refine ⟨rfl, rfl, fun q => rfl, rfl, ?_, ?_⟩
    · rw [hk.1]
    · intro h0
      exact absurd rfl h0
  · by_cases hn0 : newSize = 0
    · exfalso
      subst hn0
      rw [realloc_dispatch_zero_some T p kl al
        (kvrealloc_pull lc p 0 s).2.heap] at hfail
      simp at hfail
    · obtain ⟨hPh, hPb, hPi⟩ := kvrealloc_pull_spec lc p newSize s hlc hn0
      have hr2 := realloc_dispatch_fail_heap T p newSize kl al
        (kvrealloc_pull lc p newSize s).2.heap hfail
      rw [hfail, hr2]
      have core := kvrealloc_fail_state lc newSize p inf iok s
        { (kvrealloc_pull lc p newSize s).2 with
            heap := (kvrealloc_pull lc p newSize s).2.heap }
        (kvrealloc_pull lc p newSize s).1 hlc hPh hPb hPi
      have hk := uvm_kvfree_fields lc p
        (kvrealloc_settle lc newSize p inf iok (uvm_kvsize s.heap p)
          (kvrealloc_pull lc p newSize s).1 none
          { (kvrealloc_pull lc p newSize s).2 with
              heap := (kvrealloc_pull lc p newSize s).2.heap }) hpz hnp
      refine ⟨core.1, core.2.1, core.2.2, ?_, ?_, ?_⟩
      · rw [core.1]
      · rw [hk.1, core.1]
      · intro h0
        rw [hk.2.1 h0, core.1, core.2.1]

theorem realloc_failure_restores_witness :
    (uvm_kvrealloc_impl 4096 2 100 6 ⟨"f.c", 1, "g"⟩ none none none true
      ⟨[(100, ⟨false, 5, 8⟩)], 8, 0, [(100, ⟨"f.c", 1, "g"⟩)]⟩).2.heap
      = [(100, ⟨false, 5, 8⟩)] ∧
    (uvm_kvrealloc_impl 4096 2 100 6 ⟨"f.c", 1, "g"⟩ none none none true
      ⟨[(100, ⟨false, 5, 8⟩)], 8, 0, [(100, ⟨"f.c", 1, "g"⟩)]⟩).2.bytesAllocated
      = 8 ∧
    assocFind (uvm_kvrealloc_impl 4096 2 100 6 ⟨"f.c", 1, "g"⟩ none none none true
      ⟨[(100, ⟨false, 5, 8⟩)], 8, 0, [(100, ⟨"f.c", 1, "g"⟩)]⟩).2.infos 100
      = some ⟨"f.c", 1, "g"⟩ ∧
    uvm_kvsize (uvm_kvrealloc_impl 4096 2 100 6 ⟨"f.c", 1, "g"⟩ none none none true
      ⟨[(100, ⟨false, 5, 8⟩)], 8, 0, [(100, ⟨"f.c", 1, "g"⟩)]⟩).2.heap 100 = 8 ∧
    (uvm_kvfree 2 100
      (uvm_kvrealloc_impl 4096 2 100 6 ⟨"f.c", 1, "g"⟩ none none none true
        ⟨[(100, ⟨false, 5, 8⟩)], 8, 0, [(100, ⟨"f.c", 1, "g"⟩)]⟩).2).heap = [] ∧
    (uvm_kvfree 2 100
      (uvm_kvrealloc_impl 4096 2 100 6 ⟨"f.c", 1, "g"⟩ none none none true
        ⟨[(100, ⟨false, 5, 8⟩)], 8, 0, [(100, ⟨"f.c", 1, "g"⟩)]⟩).2).bytesAllocated
      = 0 := by
  have h := realloc_failure_restores 4096 2 100 6 ⟨"f.c", 1, "g"⟩ none none none true
    ⟨[(100, ⟨false, 5, 8⟩)], 8, 0, [(100, ⟨"f.c", 1, "g"⟩)]⟩ (by decide) rfl
  refine ⟨h.1, h.2.1, ?_, h.2.2.2.1, ?_, ?_⟩
  · rw [h.2.2.1 100]
    rfl
  · rw [h.2.2.2.2.1]
    rfl
  · rw [h.2.2.2.2.2 (by decide)]
    rfl

/-- Claim C7: in the fault-resolution retry loop, an iteration sleeps
exactly when the previous attempt reported "more processing required" and
the clock is before the recorded wake-up timestamp; a sleeping iteration
records one throttle-start event, releases the address-space lock, sleeps
for at least the remaining wait rounded to whole microseconds (an
interval proportional to the remaining wait), reacquires the lock and
records one throttle-end event — exactly one pair per sleep, in that
order, and no pair when no sleep occurs; and the loop does not finish
before such an iteration's wake-up time minus the sub-microsecond
rounding slack.  Globally the trace carries exactly as many
throttle-start and throttle-end events as sleeps. -/
theorem throttled_retry_loop (clock wakeup : Nat) (migr : Bool)
    (script : List Attempt) :
    (∀ it ∈ (faultLoop clock wakeup migr NvStatus.ok script).iters,
      (it.slept = true ↔
        (it.entryStatus = NvStatus.moreProcessing ∧
          it.entryClock < it.entryWakeup)) ∧
      (it.slept = true →
        (∃ rest, it.events
          = [FEvent.throttleStart, FEvent.upRead, FEvent.sleepFor it.sleepDur,
             FEvent.downRead, FEvent.throttleEnd] ++ rest) ∧
        napNs it.entryClock it.entryWakeup ≤ it.sleepDur ∧
        it.entryWakeup ≤ it.entryClock + it.sleepDur + 999 ∧
        countEv it.events FEvent.throttleStart = 1 ∧
        countEv it.events FEvent.throttleEnd = 1 ∧
        countSleeps it.events = 1 ∧
        it.entryWakeup
          ≤ (faultLoop clock wakeup migr NvStatus.ok script).clock + 999) ∧
      (it.slept = false →
        countEv it.events FEvent.throttleStart = 0 ∧
        countEv it.events FEvent.throttleEnd = 0 ∧
        countSleeps it.events = 0)) ∧
    countEv (joinEvents (faultLoop clock wakeup migr NvStatus.ok script).iters)
        FEvent.throttleStart
      = countSleeps
          (joinEvents (faultLoop clock wakeup migr NvStatus.ok script).iters) ∧
    countEv (joinEvents (faultLoop clock wakeup migr NvStatus.ok script).iters)
        FEvent.throttleEnd
      = countSleeps
          (joinEvents (faultLoop clock wakeup migr NvStatus.ok script).iters) := by
  have hspec := faultLoop_iters_spec clock wakeup migr NvStatus.ok script
  have hcounts := joinEvents_counts
    (faultLoop clock wakeup migr NvStatus.ok script).iters
    (fun it hit => (hspec it hit).1)
  refine ⟨?_, hcounts.1, hcounts.2⟩
  intro it hit
  obtain ⟨⟨hiff, hpos, hneg, hmono⟩, hfin⟩ := hspec it hit
  refine ⟨hiff, ?_, hneg⟩
  intro hsl
  obtain ⟨hev, hnap, hwk, hexit, h1, h2, h3⟩ := hpos hsl
  exact ⟨hev, hnap, hwk, h1, h2, h3, by omega⟩

theorem throttled_retry_loop_witness :
    countEv (joinEvents (faultLoop 0 0 false NvStatus.ok
        [⟨NvStatus.ok, NvStatus.moreProcessing, 10000000, false, 0, 0⟩,
         ⟨NvStatus.ok, NvStatus.ok, 0, true, 0, 0⟩]).iters)
      FEvent.throttleStart = 1 ∧
    countEv (joinEvents (faultLoop 0 0 false NvStatus.ok
        [⟨NvStatus.ok, NvStatus.moreProcessing, 10000000, false, 0, 0⟩,
         ⟨NvStatus.ok, NvStatus.ok, 0, true, 0, 0⟩]).iters)
      FEvent.throttleEnd = 1 ∧
    countSleeps (joinEvents (faultLoop 0 0 false NvStatus.ok
        [⟨NvStatus.ok, NvStatus.moreProcessing, 10000000, false, 0, 0⟩,
         ⟨NvStatus.ok, NvStatus.ok, 0, true, 0, 0⟩]).iters) = 1 ∧
    countEv (IterRec.events ⟨NvStatus.moreProcessing, 0, 10000000, true, 10000000,
        [FEvent.throttleStart, FEvent.upRead, FEvent.sleepFor 10000000,
         FEvent.downRead, FEvent.throttleEnd, FEvent.findCreate,
         FEvent.serviceFault], 10000000, 0, NvStatus.ok, true, false⟩)
      FEvent.throttleStart = 1 ∧
    (faultLoop 0 0 false NvStatus.ok
        [⟨NvStatus.ok, NvStatus.moreProcessing, 10000000, false, 0, 0⟩,
         ⟨NvStatus.ok, NvStatus.ok, 0, true, 0, 0⟩]).clock + 999 ≥ 10000000 := by
  have h := throttled_retry_loop 0 0 false
    [⟨NvStatus.ok, NvStatus.moreProcessing, 10000000, false, 0, 0⟩,
     ⟨NvStatus.ok, NvStatus.ok, 0, true, 0, 0⟩]
  have hit := h.1 ⟨NvStatus.moreProcessing, 0, 10000000, true, 10000000,
      [FEvent.throttleStart, FEvent.upRead, FEvent.sleepFor 10000000,
       FEvent.downRead, FEvent.throttleEnd, FEvent.findCreate,
       FEvent.serviceFault], 10000000, 0, NvStatus.ok, true, false⟩
    (by decide)
  have hsl := hit.2.1 rfl
  refine ⟨?_, ?_, ?_, hsl.2.2.2.1, ?_⟩
  · rw [h.2.1]
    decide
  · rw [h.2.2]
    decide
  · decide
  · have h9 := hsl.2.2.2.2.2.2
    simp only at h9
    omega

/-- Claim C10: with the leak checker enabled, a successful allocation
raises the aggregate byte counter by exactly `size_of` of the new
allocation — which for a small-object allocation is `ksize`, possibly
exceeding the requested size, and for a large-object allocation is the
requested size stored in the header — and a subsequent free lowers it by
the same quantity, so a matched allocate/free pair leaves the counter and
the heap unchanged. -/
theorem leak_counter_matched_pair (T lc size : Nat) (inf : Info) (a ksz : Nat)
    (iok : Bool) (s : MState)
    (hlc : 1 ≤ lc) (ha : 16 < a) (hfresh : assocFind s.heap a = none) :
    (uvm_kvmalloc_impl T lc size inf (some (a, ksz)) iok s).1 = some a ∧
    (uvm_kvmalloc_impl T lc size inf (some (a, ksz)) iok s).2.bytesAllocated
      = s.bytesAllocated
        + (uvm_kvsize (uvm_kvmalloc_impl T lc size inf (some (a, ksz)) iok s).2.heap a
            : Int) ∧
    (size ≤ T →
      uvm_kvsize (uvm_kvmalloc_impl T lc size inf (some (a, ksz)) iok s).2.heap a
        = ksz) ∧
    (¬ size ≤ T →
      uvm_kvsize (uvm_kvmalloc_impl T lc size inf (some (a, ksz)) iok s).2.heap a
        = size) ∧
    (uvm_kvfree lc a
        (uvm_kvmalloc_impl T lc size inf (some (a, ksz)) iok s).2).bytesAllocated
      = s.bytesAllocated ∧
    (uvm_kvfree lc a
        (uvm_kvmalloc_impl T lc size inf (some (a, ksz)) iok s).2).heap
      = s.heap := by
  have ha16 : 16 < a := ha
  have hzle : ¬ (a ≤ ZERO_SIZE_PTR) := by
    simp only [ZERO_SIZE_PTR]
    omega
  have hz : ZERO_OR_NULL_PTR a = false := decide_eq_false hzle
  have ha0 : ¬ a = 0 := by omega
  have hlc0 : lc ≠ 0 := by omega
  by_cases hT : size ≤ T
  all_goals {
    first
    | (have hAI : alloc_internal T size false (some (a, ksz)) s.heap
          = (some a, (a, ⟨false, size, ksz⟩) :: s.heap) := by
        simp [alloc_internal, hT])
    | (have hAI : alloc_internal T size false (some (a, ksz)) s.heap
          = (some a, (a, ⟨true, size, size⟩) :: s.heap) := by
        simp [alloc_internal, hT])
    simp only [uvm_kvmalloc_impl, hAI, hlc0, ne_eq, not_false_eq_true, if_true]
    refine ⟨trivial, ?_, ?_, ?_, ?_, ?_⟩ <;>
      simp [alloc_tracking_add_heap, alloc_tracking_add_bytes _ _ _ _ _ hz,
        alloc_tracking_remove_bytes _ _ _ hz, alloc_tracking_remove_heap,
        uvm_kvfree, uvm_kvsize, assocFind_cons_self, ha0, hlc0, hT,
        assocErase, assocErase_of_notfound s.heap a hfresh]
  }

theorem leak_counter_matched_pair_witness :
    (uvm_kvmalloc_impl 4096 1 5 ⟨"f.c", 1, "g"⟩ (some (100, 8)) true
      ⟨[], 0, 0, []⟩).1 = some 100 ∧
    (uvm_kvmalloc_impl 4096 1 5 ⟨"f.c", 1, "g"⟩ (some (100, 8)) true
      ⟨[], 0, 0, []⟩).2.bytesAllocated
      = 0 + (uvm_kvsize (uvm_kvmalloc_impl 4096 1 5 ⟨"f.c", 1, "g"⟩
              (some (100, 8)) true ⟨[], 0, 0, []⟩).2.heap 100 : Int) ∧
    uvm_kvsize (uvm_kvmalloc_impl 4096 1 5 ⟨"f.c", 1, "g"⟩ (some (100, 8)) true
      ⟨[], 0, 0, []⟩).2.heap 100 = 8 ∧
    (uvm_kvfree 1 100
      (uvm_kvmalloc_impl 4096 1 5 ⟨"f.c", 1, "g"⟩ (some (100, 8)) true
        ⟨[], 0, 0, []⟩).2).bytesAllocated = 0 ∧
    (uvm_kvfree 1 100
      (uvm_kvmalloc_impl 4096 1 5 ⟨"f.c", 1, "g"⟩ (some (100, 8)) true
        ⟨[], 0, 0, []⟩).2).heap = [] :=
  have h := leak_counter_matched_pair 4096 1 5 ⟨"f.c", 1, "g"⟩ 100 8 true
    ⟨[], 0, 0, []⟩ (by decide) (by decide) rfl
  ⟨h.1, h.2.1, h.2.2.1 (by decide), h.2.2.2.2.1, h.2.2.2.2.2⟩

end Uvm
